import Mathlib

/-!
Shallow embedding of `loader.go` from fasthttploader: the three-phase
adaptive load controller (burst → calibrate → load).

Modelling conventions:
* Go `float64` quantities (rate limits, the step `multiplier`, durations in
  seconds) are modelled as `ℚ`; the float literals `0.1`, `1.2`, `0.0001`
  are taken at their decimal values.
* Go `uint64` metric counters and (nonnegative) `int` worker counts are
  modelled as `ℕ`; Go unsigned/nonnegative integer division is `ℕ` division.
* Go's `int(x)` conversion of a nonnegative `float64` truncates toward
  zero, i.e. `Int.floor` here.
* Go's `uint64` division panics on a zero divisor; a function whose body
  would panic is modelled with `Option`, returning `none` on that input.
* The stateful phases are modelled by explicit state passing: one Lean
  function per Go function, a step function per loop body, and a fold over
  the sequence of ticker events for each watchdog loop.
-/

namespace Fasthttploader

/-- `calibrateDuration = 5 * time.Second` (seconds). -/
def calibrateDuration : ℚ := 5

/-- `adjustmentDuration = 10 * time.Second` (seconds). -/
def adjustmentDuration : ℚ := 10

/-- `samplePeriod = 500 * time.Millisecond` (seconds). -/
def samplePeriod : ℚ := 1/2

/-- Initial value of the package-level `multiplier` variable (`0.1`). -/
def multiplierInit : ℚ := 1/10

/-- `loadConfig`: the rate limit `qps` and the worker count `c`. -/
structure LoadConfig where
  qps : ℚ
  c : ℕ
  deriving DecidableEq, Repr

/-- The mutable state touched by the calibrate loop: the package-level
`multiplier`, `await` and `errors` variables, the throttle's limit and the
client pool's worker amount. -/
structure CalibrateState where
  multiplier : ℚ
  await : ℕ
  /-- the package-level `errors` baseline variable -/
  errors : ℕ
  /-- `throttle.Limit()` -/
  limit : ℚ
  /-- `client.Amount()` -/
  amount : ℕ
  deriving DecidableEq, Repr

/-- `isFlawed`: reads the current metrics error counter `metricsErrors`;
returns `true` and records the counter into the package-level `errors`
baseline exactly when the counter is positive and differs from the
baseline. -/
def isFlawed (metricsErrors : ℕ) (s : CalibrateState) : Bool × CalibrateState :=
  if 0 < metricsErrors ∧ s.errors ≠ metricsErrors then
    (true, { s with errors := metricsErrors })
  else
    (false, s)

/-- One `calibrate()` call, driven by the current metrics error counter and
the pool's `client.Overflow()`.  Returns the new state and whether the stop
signal was sent (`stopCh <- struct{}{}`). -/
def calibrate (metricsErrors overflow : ℕ) (s : CalibrateState) : CalibrateState × Bool :=
  if |s.multiplier| < 1/10000 then
    (s, true)
  else if 0 < s.await then
    ({ s with await := s.await - 1 }, false)
  else
    let f := isFlawed metricsErrors s
    if f.1 then
      ({ f.2 with
          multiplier := f.2.multiplier / (12/10),
          await := f.2.await + 3 }, false)
    else if 0 < overflow then
      ({ f.2 with
          amount := f.2.amount + (⌊(f.2.amount : ℚ) * f.2.multiplier⌋).toNat,
          await := f.2.await + 1 }, false)
    else
      ({ f.2 with
          limit := f.2.limit * (1 + f.2.multiplier),
          await := f.2.await + 1 }, false)

/-- Result of `burstThroughput`: the computed load config and the value of
the package-level `errors` baseline variable when the function returns. -/
structure BurstResult where
  cfg : LoadConfig
  lastErrors : ℕ
  deriving DecidableEq, Repr

/-- `burstThroughput`, at its deadline: `requestSum` and `metricsErrors`
are the metric counters at the deadline, `amount` is `client.Amount()`,
and `lastErrors` is the package-level `errors` variable on entry (the
function never writes it).  The error-percentage test
`(metrics.Errors()/metrics.RequestSum())*100 > 2` uses `uint64` division
and panics when `requestSum = 0`, hence the `Option`. -/
def burstThroughput (requestSum metricsErrors amount lastErrors : ℕ) :
    Option BurstResult :=
  if requestSum = 0 then
    none
  else
    let qps : ℚ := requestSum / calibrateDuration
    let c : ℕ := amount
    if (metricsErrors / requestSum) * 100 > 2 then
      some ⟨⟨qps / 2, c / 2⟩, lastErrors⟩
    else
      some ⟨⟨qps, c⟩, lastErrors⟩

/-- The tick loop of `calibrateThroughput`'s watchdog goroutine: each list
element is one `samplePeriod` tick, carrying the metrics error counter and
the pool overflow observed at that tick; the list ends at the
`adjustmentDuration` deadline.  Each tick runs `calibrate()`; a sent stop
signal ends the loop early (second component `true`). -/
def calibrateLoop : List (ℕ × ℕ) → CalibrateState → CalibrateState × Bool
  | [], s => (s, false)
  | (e, o) :: rest, s =>
    let r := calibrate e o s
    if r.2 then r else calibrateLoop rest r.1

/-- `calibrateThroughput`: spawns `cfg.c` further workers, sets the throttle
to `cfg.qps`, then runs the tick loop.  Only the deadline branch of the
watchdog (`<-timeout`) writes `cfg.qps = throttle.Limit()` and
`cfg.c = client.Amount()`; an early stop from `calibrate()` leaves `cfg`
untouched.  Returns the config seen by the load phase and the final
calibrate state. -/
def calibrateThroughput (cfg : LoadConfig) (ticks : List (ℕ × ℕ))
    (s0 : CalibrateState) : LoadConfig × CalibrateState :=
  let r := calibrateLoop ticks { s0 with amount := s0.amount + cfg.c, limit := cfg.qps }
  if r.2 then (cfg, r.1) else (⟨r.1.limit, r.1.amount⟩, r.1)

/-- `s := time.Duration(d.Seconds() / 2 / 10)` in `makeLoad`: the float
seconds value is truncated to a whole number of seconds (`time.Duration` of
a `float64` truncates toward zero; `d` is nonnegative, so this is the
floor).  The step ticker fires every `stepIntervalSeconds d` seconds. -/
def stepIntervalSeconds (dSeconds : ℚ) : ℤ := ⌊dSeconds / 2 / 10⌋

/-- The load-phase state: the throttle's limit, the pool's worker amount
and the `steps` counter of `makeLoad`'s goroutine. -/
structure LoadState where
  limit : ℚ
  amount : ℕ
  steps : ℕ
  deriving DecidableEq, Repr

/-- Entry of `makeLoad` before the first step tick: the throttle is set to
`qpsStep = cfg.qps / 10` and `workerStep = cfg.c / 10` further workers are
spawned on top of the `amount0` already running. -/
def makeLoadInit (cfg : LoadConfig) (amount0 : ℕ) : LoadState :=
  ⟨cfg.qps / 10, amount0 + cfg.c / 10, 0⟩

/-- One `<-stepTick` case of `makeLoad`'s goroutine: once `steps >= 10-1`
the tick is ignored; otherwise the limit grows by `qpsStep`, `workerStep`
workers are added and `steps` is incremented. -/
def loadStepTick (cfg : LoadConfig) (s : LoadState) : LoadState :=
  if s.steps ≥ 10 - 1 then s
  else ⟨s.limit + cfg.qps / 10, s.amount + cfg.c / 10, s.steps + 1⟩

/-- The load-phase state after `k` step ticks of `makeLoad`, starting from
a pool of `amount0` workers. -/
def loadAfter (cfg : LoadConfig) (amount0 : ℕ) : ℕ → LoadState
  | 0 => makeLoadInit cfg amount0
  | k + 1 => loadStepTick cfg (loadAfter cfg amount0 k)

/-- Outcome of `throttle.Wait(ctx)` in the driver loop: `ok` for a `nil`
error, `cancelled` for a non-`nil` error. -/
inductive WaitOutcome
  | ok
  | cancelled
  deriving DecidableEq, Repr

/-- Observable effect of one iteration of the driver loop `load()`. -/
structure LoadIterEffect where
  /-- a token was sent to `client.Jobsch` -/
  submitted : Bool
  /-- the loop returned (after `client.Flush()`) -/
  exited : Bool
  /-- the wait error was printed -/
  printedError : Bool
  deriving DecidableEq, Repr

/-- One iteration of the driver loop `load()`: on a pending stop signal the
loop flushes and returns; otherwise it waits on the throttle and — whether
or not `Wait` returned an error (a non-`nil` error is only printed) —
submits a job token. -/
def loadIter (stopSignal : Bool) (w : WaitOutcome) : LoadIterEffect :=
  if stopSignal then ⟨false, true, false⟩
  else ⟨true, false, decide (w = WaitOutcome.cancelled)⟩

/-- The metric counters read by one `printState` tick. -/
structure MetricsSnapshot where
  connOpen : ℕ
  errors : ℕ
  timeouts : ℕ
  requestSum : ℕ
  requestSuccess : ℕ
  bytesWritten : ℕ
  bytesRead : ℕ
  deriving DecidableEq, Repr

/-- The eight append-only series of the `report.Page`, plus the merged
latency histogram (`RequestDuration`), whose merge step is modelled
abstractly as accumulating the per-tick observations. -/
structure Page where
  connections : List ℕ
  errors : List ℕ
  timeouts : List ℕ
  requestSum : List ℕ
  requestSuccess : List ℕ
  bytesWritten : List ℕ
  bytesRead : List ℕ
  qps : List ℕ
  requestDuration : List (ℚ × ℚ)
  deriving DecidableEq, Repr

/-- The `report.Page` as built in `run()`: every series empty. -/
def emptyPage : Page := ⟨[], [], [], [], [], [], [], [], []⟩

/-- `printState`: under the report mutex, appends one sample of each metric
counter to the matching series, appends `uint64(throttle.Limit())` (the
truncated limit) to the qps series, and merges the latency observations. -/
def printState (m : MetricsSnapshot) (limit : ℚ) (durations : List (ℚ × ℚ))
    (p : Page) : Page where
  connections := p.connections ++ [m.connOpen]
  errors := p.errors ++ [m.errors]
  timeouts := p.timeouts ++ [m.timeouts]
  requestSum := p.requestSum ++ [m.requestSum]
  requestSuccess := p.requestSuccess ++ [m.requestSuccess]
  bytesWritten := p.bytesWritten ++ [m.bytesWritten]
  bytesRead := p.bytesRead ++ [m.bytesRead]
  qps := p.qps ++ [(⌊limit⌋).toNat]
  requestDuration := p.requestDuration ++ durations

/-- One sample tick as seen by the sampler. -/
structure SampleTick where
  snapshot : MetricsSnapshot
  limit : ℚ
  durations : List (ℚ × ℚ)

/-- The sampler over a run: one `printState` per completed tick. -/
def runSampler (ticks : List SampleTick) (p : Page) : Page :=
  ticks.foldl (fun acc t => printState t.snapshot t.limit t.durations acc) p

/-- The phases `run()` announces and executes, in order. -/
inductive Phase
  | burst
  | calibratePhase
  | loadPhase
  | reportPhase
  deriving DecidableEq, Repr

/-- Environment of one `run()`: the metric counters and pool amount at the
burst deadline, and the calibrate watchdog's tick observations. -/
structure RunEnv where
  burstRequestSum : ℕ
  burstErrors : ℕ
  burstAmount : ℕ
  calTicks : List (ℕ × ℕ)

/-- `run()`: with `q == 0` (flag `-q` unset) the burst and calibrate phases
discover the load config; otherwise both are skipped and the config is
taken from the `-q` and `-c` flags.  The calibrate phase starts from the
package-level state: `multiplier = 0.1`, `await = 0`, `errors = 0` as left
by burst (which never writes it), a pool of `burstAmount` workers.  Returns
the phases executed and the config used by `makeLoad`, or `none` when
`burstThroughput` panics. -/
def run (q : ℚ) (c : ℕ) (env : RunEnv) : Option (List Phase × LoadConfig) :=
  if q = 0 then
    (burstThroughput env.burstRequestSum env.burstErrors env.burstAmount 0).map
      fun br =>
        let s0 : CalibrateState :=
          ⟨multiplierInit, 0, br.lastErrors, br.cfg.qps, env.burstAmount⟩
        let cfg2 := (calibrateThroughput br.cfg env.calTicks s0).1
        ([Phase.burst, Phase.calibratePhase, Phase.loadPhase, Phase.reportPhase], cfg2)
  else
    some ([Phase.loadPhase, Phase.reportPhase], ⟨q, c⟩)

/-! Helper lemmas shared by the verification theorems below. -/

lemma isFlawed_of_not (e : ℕ) (s : CalibrateState) (h : ¬ (0 < e ∧ s.errors ≠ e)) :
    isFlawed e s = (false, s) := by
  simp only [isFlawed, if_neg h]

lemma isFlawed_of_new (e : ℕ) (s : CalibrateState) (h : 0 < e ∧ s.errors ≠ e) :
    isFlawed e s = (true, { s with errors := e }) := by
  simp only [isFlawed, if_pos h]

lemma calibrate_of_negligible (e o : ℕ) (s : CalibrateState)
    (h : |s.multiplier| < 1/10000) : calibrate e o s = (s, true) := by
  simp only [calibrate, if_pos h]

lemma calibrate_of_await (e o : ℕ) (s : CalibrateState)
    (h1 : ¬ |s.multiplier| < 1/10000) (h2 : 0 < s.await) :
    calibrate e o s = ({ s with await := s.await - 1 }, false) := by
  simp only [calibrate, if_neg h1, if_pos h2]

lemma calibrate_of_flawed (e o : ℕ) (s : CalibrateState)
    (h1 : ¬ |s.multiplier| < 1/10000) (h2 : ¬ 0 < s.await)
    (h3 : 0 < e ∧ s.errors ≠ e) :
    calibrate e o s =
      ({ s with errors := e, multiplier := s.multiplier / (12/10),
                await := s.await + 3 }, false) := by
  simp only [calibrate, if_neg h1, if_neg h2, isFlawed_of_new e s h3]
  simp

lemma calibrate_of_overflow (e o : ℕ) (s : CalibrateState)
    (h1 : ¬ |s.multiplier| < 1/10000) (h2 : ¬ 0 < s.await)
    (h3 : ¬ (0 < e ∧ s.errors ≠ e)) (h4 : 0 < o) :
    calibrate e o s =
      ({ s with amount := s.amount + (⌊(s.amount : ℚ) * s.multiplier⌋).toNat,
                await := s.await + 1 }, false) := by
  simp only [calibrate, if_neg h1, if_neg h2, isFlawed_of_not e s h3, if_pos h4]
  simp

lemma calibrate_of_rate (e o : ℕ) (s : CalibrateState)
    (h1 : ¬ |s.multiplier| < 1/10000) (h2 : ¬ 0 < s.await)
    (h3 : ¬ (0 < e ∧ s.errors ≠ e)) (h4 : ¬ 0 < o) :
    calibrate e o s =
      ({ s with limit := s.limit * (1 + s.multiplier), await := s.await + 1 }, false) := by
  simp only [calibrate, if_neg h1, if_neg h2, isFlawed_of_not e s h3, if_neg h4]
  simp

/-- Every branch of `calibrate` either keeps the multiplier or divides it
by `1.2`. -/
lemma calibrate_multiplier_cases (e o : ℕ) (s : CalibrateState) :
    (calibrate e o s).1.multiplier = s.multiplier ∨
    (calibrate e o s).1.multiplier = s.multiplier / (12/10) := by
  by_cases h1 : |s.multiplier| < 1/10000
  · left; rw [calibrate_of_negligible e o s h1]
  by_cases h2 : 0 < s.await
  · left; rw [calibrate_of_await e o s h1 h2]
  by_cases h3 : 0 < e ∧ s.errors ≠ e
  · right; rw [calibrate_of_flawed e o s h1 h2 h3]
  by_cases h4 : 0 < o
  · left; rw [calibrate_of_overflow e o s h1 h2 h3 h4]
  · left; rw [calibrate_of_rate e o s h1 h2 h3 h4]

lemma calibrate_multiplier_pos_le (e o : ℕ) (s : CalibrateState)
    (h : 0 < s.multiplier) :
    0 < (calibrate e o s).1.multiplier ∧
    (calibrate e o s).1.multiplier ≤ s.multiplier := by
  rcases calibrate_multiplier_cases e o s with hc | hc <;> rw [hc]
  · exact ⟨h, le_refl _⟩
  · constructor
    · positivity
    · rw [div_le_iff₀ (by norm_num)]
      nlinarith

lemma calibrateLoop_multiplier (ticks : List (ℕ × ℕ)) (s : CalibrateState)
    (h : 0 < s.multiplier) :
    0 < (calibrateLoop ticks s).1.multiplier ∧
    (calibrateLoop ticks s).1.multiplier ≤ s.multiplier := by
  induction ticks generalizing s with
  | nil => exact ⟨h, le_refl _⟩
  | cons t rest ih =>
    obtain ⟨e, o⟩ := t
    have hstep := calibrate_multiplier_pos_le e o s h
    by_cases hb : (calibrate e o s).2
    · simp only [calibrateLoop, if_pos hb]
      exact hstep
    · simp only [calibrateLoop, if_neg hb]
      have := ih (calibrate e o s).1 hstep.1
      exact ⟨this.1, le_trans this.2 hstep.2⟩

lemma calibrateThroughput_of_stop (cfg : LoadConfig) (ticks : List (ℕ × ℕ))
    (s0 : CalibrateState)
    (h : (calibrateLoop ticks { s0 with amount := s0.amount + cfg.c, limit := cfg.qps }).2 = true) :
    calibrateThroughput cfg ticks s0 =
      (cfg, (calibrateLoop ticks { s0 with amount := s0.amount + cfg.c, limit := cfg.qps }).1) := by
  simp only [calibrateThroughput, if_pos h]

lemma calibrateThroughput_of_deadline (cfg : LoadConfig) (ticks : List (ℕ × ℕ))
    (s0 : CalibrateState)
    (h : (calibrateLoop ticks { s0 with amount := s0.amount + cfg.c, limit := cfg.qps }).2 = false) :
    calibrateThroughput cfg ticks s0 =
      (⟨(calibrateLoop ticks { s0 with amount := s0.amount + cfg.c, limit := cfg.qps }).1.limit,
        (calibrateLoop ticks { s0 with amount := s0.amount + cfg.c, limit := cfg.qps }).1.amount⟩,
       (calibrateLoop ticks { s0 with amount := s0.amount + cfg.c, limit := cfg.qps }).1) := by
  simp only [calibrateThroughput, h, Bool.false_eq_true, if_false]

/-- Closed form of the load-phase state: after `k` step ticks the limit is
`qps/10 * (min k 9 + 1)`, the pool has grown by `(min k 9 + 1)` worker
steps, and the `steps` counter reads `min k 9`. -/
lemma loadAfter_spec (cfg : LoadConfig) (amount0 k : ℕ) :
    loadAfter cfg amount0 k =
      ⟨cfg.qps / 10 * (min k 9 + 1),
       amount0 + (min k 9 + 1) * (cfg.c / 10),
       min k 9⟩ := by
  induction k with
  | zero =>
    simp [loadAfter, makeLoadInit]
  | succ k ih =>
    rw [loadAfter, ih, loadStepTick]
    by_cases hk : 9 ≤ k
    · rw [if_pos (by simpa using hk)]
      have h1 : min k 9 = 9 := min_eq_right hk
      have h2 : min (k + 1) 9 = 9 := min_eq_right (by omega)
      rw [h1, h2]
    · rw [if_neg (by simpa using hk)]
      have h1 : min k 9 = k := min_eq_left (by omega)
      have h2 : min (k + 1) 9 = k + 1 := min_eq_left (by omega)
      rw [h1, h2]
      refine LoadState.mk.injEq _ _ _ _ _ _ ▸ ⟨by push_cast; ring, by ring_nf, rfl⟩

lemma printState_lengths (m : MetricsSnapshot) (limit : ℚ)
    (ds : List (ℚ × ℚ)) (p : Page) :
    (printState m limit ds p).connections.length = p.connections.length + 1 ∧
    (printState m limit ds p).errors.length = p.errors.length + 1 ∧
    (printState m limit ds p).timeouts.length = p.timeouts.length + 1 ∧
    (printState m limit ds p).requestSum.length = p.requestSum.length + 1 ∧
    (printState m limit ds p).requestSuccess.length = p.requestSuccess.length + 1 ∧
    (printState m limit ds p).bytesWritten.length = p.bytesWritten.length + 1 ∧
    (printState m limit ds p).bytesRead.length = p.bytesRead.length + 1 ∧
    (printState m limit ds p).qps.length = p.qps.length + 1 := by
  simp [printState]

lemma runSampler_lengths (ticks : List SampleTick) (p : Page) :
    (runSampler ticks p).connections.length = p.connections.length + ticks.length ∧
    (runSampler ticks p).errors.length = p.errors.length + ticks.length ∧
    (runSampler ticks p).timeouts.length = p.timeouts.length + ticks.length ∧
    (runSampler ticks p).requestSum.length = p.requestSum.length + ticks.length ∧
    (runSampler ticks p).requestSuccess.length = p.requestSuccess.length + ticks.length ∧
    (runSampler ticks p).bytesWritten.length = p.bytesWritten.length + ticks.length ∧
    (runSampler ticks p).bytesRead.length = p.bytesRead.length + ticks.length ∧
    (runSampler ticks p).qps.length = p.qps.length + ticks.length := by
  induction ticks generalizing p with
  | nil => simp [runSampler]
  | cons t rest ih =>
    have hstep := printState_lengths t.snapshot t.limit t.durations p
    have hrec := ih (printState t.snapshot t.limit t.durations p)
    have hfold : runSampler (t :: rest) p =
        runSampler rest (printState t.snapshot t.limit t.durations p) := rfl
    rw [hfold]
    simp only [List.length_cons]
    refine ⟨?_, ?_, ?_, ?_, ?_, ?_, ?_, ?_⟩ <;> omega

lemma run_of_zero (q : ℚ) (c : ℕ) (env : RunEnv) (h : q = 0) :
    run q c env =
      (burstThroughput env.burstRequestSum env.burstErrors env.burstAmount 0).map
        fun br =>
          ([Phase.burst, Phase.calibratePhase, Phase.loadPhase, Phase.reportPhase],
           (calibrateThroughput br.cfg env.calTicks
             ⟨multiplierInit, 0, br.lastErrors, br.cfg.qps, env.burstAmount⟩).1) := by
  simp only [run, if_pos h]

lemma run_of_nonzero (q : ℚ) (c : ℕ) (env : RunEnv) (h : q ≠ 0) :
    run q c env = some ([Phase.loadPhase, Phase.reportPhase], ⟨q, c⟩) := by
  simp only [run, if_neg h]

/-! The claim theorems. -/

/-- C1: at a Calibrate evaluation tick (no pending `await` skip, multiplier
not yet negligible) where the error count has not increased since the last
check, exactly one escalation happens: positive pool overflow adds
`floor(pool.amount() * multiplier)` workers, otherwise the rate limit is
multiplied by `(1 + multiplier)`, and in either case `await` becomes `1` so
the next tick is skipped; when the error count has increased, the
multiplier is divided by `1.2` and `await` becomes `3` so the next three
ticks are skipped.  A tick with pending `await` only decrements it. -/
theorem calibrate_escalation (e o : ℕ) (s : CalibrateState)
    (h0 : s.await = 0) (h1 : ¬ |s.multiplier| < 1/10000) :
    (¬ (0 < e ∧ s.errors ≠ e) → 0 < o →
       calibrate e o s =
         ({ s with amount := s.amount + (⌊(s.amount : ℚ) * s.multiplier⌋).toNat,
                   await := 1 }, false)) ∧
    (¬ (0 < e ∧ s.errors ≠ e) → o = 0 →
       calibrate e o s =
         ({ s with limit := s.limit * (1 + s.multiplier), await := 1 }, false)) ∧
    ((0 < e ∧ s.errors ≠ e) →
       calibrate e o s =
         ({ s with errors := e, multiplier := s.multiplier / (12/10),
                   await := 3 }, false)) ∧
    (∀ (e2 o2 : ℕ) (t : CalibrateState), 0 < t.await → ¬ |t.multiplier| < 1/10000 →
       calibrate e2 o2 t = ({ t with await := t.await - 1 }, false)) := by
  have hnla : ¬ 0 < s.await := by omega
  refine ⟨?_, ?_, ?_, ?_⟩
  · intro hnf ho
    rw [calibrate_of_overflow e o s h1 hnla hnf ho, h0]
  · intro hnf ho
    rw [calibrate_of_rate e o s h1 hnla hnf (by omega), h0]
  · intro hf
    rw [calibrate_of_flawed e o s h1 hnla hf, h0]
  · intro e2 o2 t ht h1t
    exact calibrate_of_await e2 o2 t h1t ht

/-- Witness for C1: a concrete overflow escalation (25 workers, multiplier
0.1, 2 workers added) and a concrete retreat (multiplier divided by 1.2,
three ticks to skip). -/
theorem calibrate_escalation_witness :
    calibrate 0 3 ⟨1/10, 0, 0, 4, 25⟩ = (⟨1/10, 1, 0, 4, 27⟩, false) ∧
    calibrate 7 0 ⟨1/10, 0, 3, 4, 25⟩ = (⟨1/10 / (12/10), 3, 7, 4, 25⟩, false) := by
  constructor
  · have h := (calibrate_escalation 0 3 ⟨1/10, 0, 0, 4, 25⟩ rfl (by
        rw [show |(1/10 : ℚ)| = 1/10 from abs_of_pos (by norm_num)]
        norm_num)).1
      (by norm_num) (by norm_num)
    rw [h]
    norm_num
    rfl
  · have h := (calibrate_escalation 7 0 ⟨1/10, 0, 3, 4, 25⟩ rfl (by
        rw [show |(1/10 : ℚ)| = 1/10 from abs_of_pos (by norm_num)]
        norm_num)).2.2.1
      (by norm_num)
    rw [h]

/-- C5: the multiplier starts at `0.1`; each `calibrate` step either keeps
it or divides it by `1.2` (the only mutation); from a positive value it
stays positive and never increases, across a single step and across any
sequence of ticks; and as soon as `|multiplier| < 1e-4` the step sends the
stop signal and changes nothing. -/
theorem multiplier_monotone :
    multiplierInit = 1/10 ∧
    (∀ (e o : ℕ) (s : CalibrateState),
       (calibrate e o s).1.multiplier = s.multiplier ∨
       (calibrate e o s).1.multiplier = s.multiplier / (12/10)) ∧
    (∀ (e o : ℕ) (s : CalibrateState), 0 < s.multiplier →
       0 < (calibrate e o s).1.multiplier ∧
       (calibrate e o s).1.multiplier ≤ s.multiplier) ∧
    (∀ (e o : ℕ) (s : CalibrateState), |s.multiplier| < 1/10000 →
       calibrate e o s = (s, true)) ∧
    (∀ (ticks : List (ℕ × ℕ)) (s : CalibrateState), 0 < s.multiplier →
       (calibrateLoop ticks s).1.multiplier ≤ s.multiplier) :=
  ⟨rfl, calibrate_multiplier_cases, calibrate_multiplier_pos_le,
   calibrate_of_negligible,
   fun ticks s h => (calibrateLoop_multiplier ticks s h).2⟩

/-- Witness for C5: from multiplier `0.1` a concrete step stays positive
and does not increase, and a negligible multiplier stops calibration. -/
theorem multiplier_monotone_witness :
    (0 < (calibrate 0 0 ⟨1/10, 0, 0, 1, 1⟩).1.multiplier ∧
     (calibrate 0 0 ⟨1/10, 0, 0, 1, 1⟩).1.multiplier ≤ 1/10) ∧
    calibrate 0 0 ⟨3/100000, 0, 0, 1, 1⟩ = (⟨3/100000, 0, 0, 1, 1⟩, true) :=
  ⟨multiplier_monotone.2.2.1 0 0 ⟨1/10, 0, 0, 1, 1⟩ (by norm_num),
   multiplier_monotone.2.2.2.1 0 0 ⟨3/100000, 0, 0, 1, 1⟩ (by
     rw [show |(3/100000 : ℚ)| = 3/100000 from abs_of_pos (by norm_num)]
     norm_num)⟩

/-- C10: the end-of-Burst error check divides `errors` by `request_sum`
with unguarded unsigned integer division: with `request_sum = 0` the
function panics (no result), and with `request_sum > 0` it always produces
a `(qps, workers)` estimate. -/
theorem burst_divzero_guard :
    (∀ (e a l : ℕ), burstThroughput 0 e a l = none) ∧
    (∀ (sum e a l : ℕ), 0 < sum → (burstThroughput sum e a l).isSome = true) := by
  constructor
  · intro e a l
    simp [burstThroughput]
  · intro sum e a l h
    rw [burstThroughput, if_neg (by omega)]
    by_cases hc : (e / sum) * 100 > 2
    · rw [if_pos hc]
      rfl
    · rw [if_neg hc]
      rfl

/-- Witness for C10: one request and no errors yields an estimate. -/
theorem burst_divzero_guard_witness :
    (burstThroughput 0 5 4 0 = none) ∧ (burstThroughput 1 0 0 0).isSome = true :=
  ⟨burst_divzero_guard.1 5 4 0, burst_divzero_guard.2 1 0 0 0 (by norm_num)⟩

/-- C8: every sample tick appends exactly one element to each of the eight
report series, so after any number of completed ticks all eight series have
equal length, equal to the tick count. -/
theorem sampler_series_lengths :
    (∀ (m : MetricsSnapshot) (limit : ℚ) (ds : List (ℚ × ℚ)) (p : Page),
       (printState m limit ds p).connections.length = p.connections.length + 1 ∧
       (printState m limit ds p).errors.length = p.errors.length + 1 ∧
       (printState m limit ds p).timeouts.length = p.timeouts.length + 1 ∧
       (printState m limit ds p).requestSum.length = p.requestSum.length + 1 ∧
       (printState m limit ds p).requestSuccess.length = p.requestSuccess.length + 1 ∧
       (printState m limit ds p).bytesWritten.length = p.bytesWritten.length + 1 ∧
       (printState m limit ds p).bytesRead.length = p.bytesRead.length + 1 ∧
       (printState m limit ds p).qps.length = p.qps.length + 1) ∧
    (∀ ticks : List SampleTick,
       (runSampler ticks emptyPage).connections.length = ticks.length ∧
       (runSampler ticks emptyPage).errors.length = ticks.length ∧
       (runSampler ticks emptyPage).timeouts.length = ticks.length ∧
       (runSampler ticks emptyPage).requestSum.length = ticks.length ∧
       (runSampler ticks emptyPage).requestSuccess.length = ticks.length ∧
       (runSampler ticks emptyPage).bytesWritten.length = ticks.length ∧
       (runSampler ticks emptyPage).bytesRead.length = ticks.length ∧
       (runSampler ticks emptyPage).qps.length = ticks.length) := by
  refine ⟨printState_lengths, fun ticks => ?_⟩
  have h := runSampler_lengths ticks emptyPage
  simpa [emptyPage] using h

/-- C7 counterexample: after a cancelled `throttle.Wait` (non-`nil` error)
the driver loop does not exit and still submits a job token, contradicting
the claim that it exits cleanly without submitting. -/
theorem driver_cancel_cex :
    (loadIter false WaitOutcome.cancelled).submitted = true ∧
    (loadIter false WaitOutcome.cancelled).exited = false := by
  constructor <;> rfl

/-- C7 amended: a non-`nil` error from the rate limiter's wait is only
printed; the driver still submits a job token and does not exit.  The loop
exits (without submitting) exactly when the stop signal is pending. -/
theorem driver_cancel_amended :
    (∀ w : WaitOutcome, loadIter true w = ⟨false, true, false⟩) ∧
    (∀ w : WaitOutcome,
       (loadIter false w).submitted = true ∧ (loadIter false w).exited = false) ∧
    (loadIter false WaitOutcome.cancelled).printedError = true ∧
    (loadIter false WaitOutcome.ok).printedError = false := by
  refine ⟨fun w => rfl, fun w => ⟨rfl, rfl⟩, rfl, rfl⟩

/-- C2 counterexample: at the Burst deadline with 1 error out of 2 requests
the observed error fraction `1/2` exceeds `0.02`, yet the code — whose test
`(errors/request_sum)*100 > 2` uses unsigned integer division, so `1/2 = 0`
— leaves qps and workers unhalved. -/
theorem burst_halving_threshold_cex :
    burstThroughput 2 1 10 0 = some ⟨⟨2/5, 10⟩, 0⟩ ∧ ((1 : ℚ)/2 > 2/100) := by
  constructor
  · norm_num [burstThroughput, calibrateDuration]
  · norm_num

/-- C2 amended: the halving test `(errors/request_sum)*100 > 2` uses
unsigned integer division, so (given `errors ≤ request_sum`) it fires
exactly when every counted request errored (`errors = request_sum`); then
qps is exactly halved and the worker count is halved by integer division;
otherwise both are left unchanged. -/
theorem burst_halving_amended (sum e a l : ℕ) (hs : 0 < sum) (he : e ≤ sum) :
    (((e / sum) * 100 > 2) ↔ e = sum) ∧
    (e = sum →
       burstThroughput sum e a l =
         some ⟨⟨((sum : ℚ) / calibrateDuration) / 2, a / 2⟩, l⟩) ∧
    (e < sum →
       burstThroughput sum e a l =
         some ⟨⟨(sum : ℚ) / calibrateDuration, a⟩, l⟩) := by
  have hiff : ((e / sum) * 100 > 2) ↔ e = sum := by
    constructor
    · intro h
      by_contra hne
      have hlt : e < sum := lt_of_le_of_ne he hne
      rw [Nat.div_eq_of_lt hlt] at h
      omega
    · intro h
      subst h
      rw [Nat.div_self hs]
      omega
  refine ⟨hiff, ?_, ?_⟩
  · intro h
    rw [burstThroughput, if_neg (by omega), if_pos (hiff.mpr h)]
  · intro h
    rw [burstThroughput, if_neg (by omega),
      if_neg (fun hc => absurd (hiff.mp hc) (by omega))]

/-- Witness for C2 (amended): an all-error burst (4 of 4) halves qps to
`(4/5)/2` and workers from 7 to 3, and a burst with 1 error in 4 requests
leaves both untouched. -/
theorem burst_halving_amended_witness :
    burstThroughput 4 4 7 0 =
      some ⟨⟨(((4 : ℕ) : ℚ) / calibrateDuration) / 2, 3⟩, 0⟩ ∧
    burstThroughput 4 1 7 0 =
      some ⟨⟨(((4 : ℕ) : ℚ) / calibrateDuration), 7⟩, 0⟩ :=
  ⟨(burst_halving_amended 4 4 7 0 (by norm_num) (by norm_num)).2.1 rfl,
   (burst_halving_amended 4 1 7 0 (by norm_num) (by norm_num)).2.2 (by norm_num)⟩

/-- C3 counterexample: for `T_load = 30` seconds the code's step interval
is `1` whole second (truncated), not `T_load/20 = 1.5`; and after 10 step
ticks the limit is the calibrated qps itself (initial `qps/10` plus only 9
increments), not the `qps/10 * 11` that an initial `qps/10` followed by 10
further increments of `qps/10` would give. -/
theorem load_ramp_cex :
    stepIntervalSeconds 30 = 1 ∧ ((30 : ℚ)/20 ≠ 1) ∧
    (loadAfter ⟨100, 50⟩ 0 10).limit = 100 ∧
    ((100 : ℚ)/10 * (10 + 1) ≠ 100) := by
  refine ⟨?_, by norm_num, ?_, by norm_num⟩
  · norm_num [stepIntervalSeconds]
  · norm_num [loadAfter, loadStepTick, makeLoadInit]

/-- C3 amended: the step interval is `⌊T_load/20⌋` whole seconds (the float
`d.Seconds()/2/10` is truncated to an integer second count, so it deviates
from `T_load/20` whenever `T_load` is not a multiple of 20 s and collapses
to zero for `T_load < 20` s).  The limit starts at `qps/10` and rises by
`qps/10` on each of the first 9 step ticks only, reaching exactly `qps` as
of the 9th tick and staying constant afterwards; each of those steps also
adds `⌊workers/10⌋` workers. -/
theorem load_ramp_amended (cfg : LoadConfig) (amount0 k : ℕ) (d : ℚ) :
    (stepIntervalSeconds d = ⌊d / 20⌋) ∧
    ((loadAfter cfg amount0 0).limit = cfg.qps / 10 ∧
     (loadAfter cfg amount0 0).amount = amount0 + cfg.c / 10) ∧
    (k < 9 →
       (loadAfter cfg amount0 (k+1)).limit =
         (loadAfter cfg amount0 k).limit + cfg.qps / 10 ∧
       (loadAfter cfg amount0 (k+1)).amount =
         (loadAfter cfg amount0 k).amount + cfg.c / 10) ∧
    (9 ≤ k →
       loadAfter cfg amount0 k = loadAfter cfg amount0 9 ∧
       (loadAfter cfg amount0 9).limit = cfg.qps) ∧
    ((loadAfter cfg amount0 k).limit = cfg.qps / 10 * (min k 9 + 1)) := by
  refine ⟨?_, ?_, ?_, ?_, ?_⟩
  · rw [stepIntervalSeconds]
    norm_num [div_div]
  · rw [loadAfter_spec]
    norm_num
  · intro hk
    rw [loadAfter_spec, loadAfter_spec]
    have h1 : min k 9 = k := min_eq_left (by omega)
    have h2 : min (k + 1) 9 = k + 1 := min_eq_left (by omega)
    rw [h1, h2]
    constructor
    · push_cast
      ring
    · ring_nf
  · intro hk
    rw [loadAfter_spec, loadAfter_spec]
    have h1 : min k 9 = 9 := min_eq_right hk
    rw [h1]
    refine ⟨rfl, ?_⟩
    norm_num
  · rw [loadAfter_spec]

/-- Witness for C3 (amended): with qps 100 and 50 workers, the 4th step
tick raises the limit by 10 and adds 5 workers, the state after 12 ticks
equals the state after 9, and the limit there is exactly 100. -/
theorem load_ramp_amended_witness :
    ((loadAfter ⟨100, 50⟩ 0 4).limit = (loadAfter ⟨100, 50⟩ 0 3).limit + 100/10 ∧
     (loadAfter ⟨100, 50⟩ 0 4).amount = (loadAfter ⟨100, 50⟩ 0 3).amount + 5) ∧
    (loadAfter ⟨100, 50⟩ 0 12 = loadAfter ⟨100, 50⟩ 0 9 ∧
     (loadAfter ⟨100, 50⟩ 0 9).limit = 100) :=
  ⟨(load_ramp_amended ⟨100, 50⟩ 0 3 0).2.2.1 (by norm_num),
   (load_ramp_amended ⟨100, 50⟩ 0 12 0).2.2.2.1 (by norm_num)⟩

/-- C4 counterexample: a Burst phase ending with 5 errors (and 10 requests)
returns with the package-level `errors` baseline still `0` — the code does
not record `last_errors = errors` at the end of Burst — so the next
Calibrate evaluation, although the error counter has not moved since the
Burst deadline, reports flawed. -/
theorem flawed_baseline_cex :
    (burstThroughput 10 5 4 0).map (fun br => br.lastErrors) = some 0 ∧
    ((0 : ℕ) ≠ 5) ∧
    (isFlawed 5 ⟨1/10, 0, 0, 2, 4⟩).1 = true := by
  refine ⟨?_, by omega, ?_⟩
  · norm_num [burstThroughput, calibrateDuration]
  · norm_num [isFlawed]

/-- C4 amended: the flawed decision holds exactly when the error counter is
positive and differs from the baseline variable; under a monotone counter
(baseline ≤ current) that is exactly a strict increase over the baseline.
The baseline starts at `0` and is updated to the current count only on each
flawed evaluation; `burstThroughput` never writes it. -/
theorem flawed_amended (e : ℕ) (s : CalibrateState) :
    ((isFlawed e s).1 = true ↔ (0 < e ∧ s.errors ≠ e)) ∧
    (s.errors ≤ e → ((isFlawed e s).1 = true ↔ s.errors < e)) ∧
    ((0 < e ∧ s.errors ≠ e) → (isFlawed e s).2 = { s with errors := e }) ∧
    (¬ (0 < e ∧ s.errors ≠ e) → (isFlawed e s).2 = s) ∧
    (∀ (sum me a l : ℕ), sum ≠ 0 →
       (burstThroughput sum me a l).map (fun br => br.lastErrors) = some l) := by
  refine ⟨?_, ?_, ?_, ?_, ?_⟩
  · by_cases h : 0 < e ∧ s.errors ≠ e
    · rw [isFlawed_of_new e s h]
      simpa using h
    · rw [isFlawed_of_not e s h]
      simpa using h
  · intro hle
    by_cases h : 0 < e ∧ s.errors ≠ e
    · rw [isFlawed_of_new e s h]
      simp only [true_iff]
      omega
    · rw [isFlawed_of_not e s h]
      simp only [Bool.false_eq_true, false_iff]
      omega
  · intro h
    rw [isFlawed_of_new e s h]
  · intro h
    rw [isFlawed_of_not e s h]
  · intro sum me a l h
    rw [burstThroughput, if_neg h]
    by_cases hc : (me / sum) * 100 > 2
    · rw [if_pos hc]
      rfl
    · rw [if_neg hc]
      rfl

/-- Witness for C4 (amended): with baseline 3 and counter 7 the evaluation
is flawed and records 7; with counter 0 it is not; Burst with two errors
returns the baseline it was given. -/
theorem flawed_amended_witness :
    ((isFlawed 7 ⟨1/10, 0, 3, 2, 4⟩).1 = true ↔ 3 < 7) ∧
    (isFlawed 7 ⟨1/10, 0, 3, 2, 4⟩).2 = ⟨1/10, 0, 7, 2, 4⟩ ∧
    (burstThroughput 9 2 4 3).map (fun br => br.lastErrors) = some 3 :=
  ⟨(flawed_amended 7 ⟨1/10, 0, 3, 2, 4⟩).2.1 (by decide),
   (flawed_amended 7 ⟨1/10, 0, 3, 2, 4⟩).2.2.1 (by decide),
   (flawed_amended 0 ⟨0, 0, 0, 0, 0⟩).2.2.2.2 9 2 4 3 (by decide)⟩

/-- C6 counterexample: a Calibrate phase that halts early (multiplier
`3e-5` is below `1e-4` at the first tick, sending the stop signal) returns
the burst-phase config `⟨7, 2⟩` unchanged, although the pool holds 5
workers — the `cfg.qps = throttle.Limit(); cfg.c = client.Amount()` update
lives only in the watchdog's deadline branch. -/
theorem calibrate_end_config_cex :
    (calibrateThroughput ⟨7, 2⟩ [(0, 0)] ⟨3/100000, 0, 0, 0, 3⟩).1 = ⟨7, 2⟩ ∧
    ((calibrateThroughput ⟨7, 2⟩ [(0, 0)] ⟨3/100000, 0, 0, 0, 3⟩).2).amount = 5 ∧
    ((2 : ℕ) ≠ 5) ∧
    (calibrateLoop [(0, 0)] ⟨3/100000, 0, 0, 7, 5⟩).2 = true := by
  have hcal : calibrate 0 0 ⟨3/100000, 0, 0, 7, 5⟩ = (⟨3/100000, 0, 0, 7, 5⟩, true) :=
    calibrate_of_negligible 0 0 _ (by
      rw [show |(3/100000 : ℚ)| = 3/100000 from abs_of_pos (by norm_num)]
      norm_num)
  have hloop : calibrateLoop [(0, 0)] ⟨3/100000, 0, 0, 7, 5⟩ =
      (⟨3/100000, 0, 0, 7, 5⟩, true) := by
    simp only [calibrateLoop, hcal]
    simp
  have hstop := calibrateThroughput_of_stop ⟨7, 2⟩ [(0, 0)] ⟨3/100000, 0, 0, 0, 3⟩ (by
    show (calibrateLoop [(0, 0)] ⟨3/100000, 0, 0, 7, 5⟩).2 = true
    rw [hloop])
  refine ⟨?_, ?_, by omega, hloop ▸ rfl⟩
  · rw [hstop]
  · rw [hstop]
    show (calibrateLoop [(0, 0)] ⟨3/100000, 0, 0, 7, 5⟩).1.amount = 5
    rw [hloop]

/-- C6 amended: when the Calibrate tick loop runs to its deadline the load
config is updated to the throttle's limit and the pool's amount; when the
loop ends early on the stop signal from `calibrate()` the config is left
unchanged, so the Load phase then uses the burst-phase values. -/
theorem calibrate_end_config_amended (cfg : LoadConfig) (ticks : List (ℕ × ℕ))
    (s0 : CalibrateState) :
    ((calibrateLoop ticks { s0 with amount := s0.amount + cfg.c, limit := cfg.qps }).2 = false →
       (calibrateThroughput cfg ticks s0).1 =
         ⟨(calibrateLoop ticks { s0 with amount := s0.amount + cfg.c, limit := cfg.qps }).1.limit,
          (calibrateLoop ticks { s0 with amount := s0.amount + cfg.c, limit := cfg.qps }).1.amount⟩) ∧
    ((calibrateLoop ticks { s0 with amount := s0.amount + cfg.c, limit := cfg.qps }).2 = true →
       (calibrateThroughput cfg ticks s0).1 = cfg) := by
  constructor
  · intro h
    rw [calibrateThroughput_of_deadline cfg ticks s0 h]
  · intro h
    rw [calibrateThroughput_of_stop cfg ticks s0 h]

/-- Witness for C6 (amended): an empty tick list means the deadline fires
at once and the config becomes the limit/amount pair `⟨7, 5⟩`; an immediate
negligible-multiplier stop leaves the config at `⟨7, 2⟩`. -/
theorem calibrate_end_config_amended_witness :
    (calibrateThroughput ⟨7, 2⟩ [] ⟨1/10, 0, 0, 0, 3⟩).1 = ⟨7, 5⟩ ∧
    (calibrateThroughput ⟨7, 2⟩ [(0, 0)] ⟨3/100000, 0, 0, 0, 3⟩).1 = ⟨7, 2⟩ := by
  constructor
  · exact (calibrate_end_config_amended ⟨7, 2⟩ [] ⟨1/10, 0, 0, 0, 3⟩).1 rfl
  · refine (calibrate_end_config_amended ⟨7, 2⟩ [(0, 0)] ⟨3/100000, 0, 0, 0, 3⟩).2 ?_
    show (calibrateLoop [(0, 0)] ⟨3/100000, 0, 0, 7, 5⟩).2 = true
    have hcal : calibrate 0 0 ⟨3/100000, 0, 0, 7, 5⟩ = (⟨3/100000, 0, 0, 7, 5⟩, true) :=
      calibrate_of_negligible 0 0 _ (by
        rw [show |(3/100000 : ℚ)| = 3/100000 from abs_of_pos (by norm_num)]
        norm_num)
    simp only [calibrateLoop, hcal]
    simp

/-- C9: with the `-q` flag zero, `run` executes Burst then Calibrate then
Load then Report, and the load config is what Calibrate made of the Burst
estimate; with `-q` nonzero, Burst and Calibrate are skipped and Load runs
directly with `qps = q` and `workers = c` from the CLI. -/
theorem run_phase_dispatch (q : ℚ) (c : ℕ) (env : RunEnv) :
    (q ≠ 0 → run q c env = some ([Phase.loadPhase, Phase.reportPhase], ⟨q, c⟩)) ∧
    (q = 0 → run q c env =
       (burstThroughput env.burstRequestSum env.burstErrors env.burstAmount 0).map
         fun br =>
           ([Phase.burst, Phase.calibratePhase, Phase.loadPhase, Phase.reportPhase],
            (calibrateThroughput br.cfg env.calTicks
              ⟨multiplierInit, 0, br.lastErrors, br.cfg.qps, env.burstAmount⟩).1)) ∧
    (q = 0 → ∀ (ps : List Phase) (cfg2 : LoadConfig),
       run q c env = some (ps, cfg2) →
       ps = [Phase.burst, Phase.calibratePhase, Phase.loadPhase, Phase.reportPhase]) := by
  refine ⟨run_of_nonzero q c env, run_of_zero q c env, ?_⟩
  intro h ps cfg2 hrun
  rw [run_of_zero q c env h] at hrun
  cases hb : burstThroughput env.burstRequestSum env.burstErrors env.burstAmount 0 with
  | none =>
    rw [hb] at hrun
    simp at hrun
  | some br =>
    rw [hb] at hrun
    simp only [Option.map_some', Option.some_inj] at hrun
    exact (Prod.mk.injEq _ _ _ _ ▸ hrun).1.symm

/-- Witness for C9: `-q 5 -c 3` runs Load directly with `⟨5, 3⟩`; `-q 0`
runs the discovery pipeline. -/
theorem run_phase_dispatch_witness :
    run 5 3 ⟨5, 0, 2, []⟩ = some ([Phase.loadPhase, Phase.reportPhase], ⟨5, 3⟩) ∧
    run 0 3 ⟨5, 0, 2, []⟩ =
      (burstThroughput 5 0 2 0).map
        (fun br =>
          ([Phase.burst, Phase.calibratePhase, Phase.loadPhase, Phase.reportPhase],
           (calibrateThroughput br.cfg [] ⟨multiplierInit, 0, br.lastErrors, br.cfg.qps, 2⟩).1)) :=
  ⟨(run_phase_dispatch 5 3 ⟨5, 0, 2, []⟩).1 (by norm_num),
   (run_phase_dispatch 0 3 ⟨5, 0, 2, []⟩).2.1 rfl⟩

end Fasthttploader
